import Mathlib

/-!
Shallow embedding of the `librechat-agent-invoice-extractor` client
(`librechat_invoice_extractor.py` and `examples/batch_processing.py`).

The HTTP backend, the filesystem and Python's `json` module are modelled as
oracles bundled in an `Env` record; everything the client itself computes
(string manipulation, the streaming-line loop, payload construction, the
drivers' control flow) is translated definition-by-definition from the
Python source.  Python string primitives (`str.strip`, `str.split('\n')`,
`'\n'.join`, `str.startswith`, slicing) are given explicit executable
models (`pyStrip`, `pySplitNl`, `pyJoinNl`, `pyStartsWith`, `pyDrop`) so
that all proofs stay at the level of lists of characters.
-/

namespace InvoiceExtractor

/-- Characters treated as whitespace by Python's `str.strip()` (ASCII part). -/
def pyIsSpace (c : Char) : Bool :=
  c = ' ' || c = '\t' || c = '\n' || c = '\r' || c = '\x0b' || c = '\x0c'

/-- Model of Python `s.strip()`: drop whitespace from both ends. -/
def pyStrip (s : String) : String :=
  String.mk (((s.data.dropWhile pyIsSpace).reverse.dropWhile pyIsSpace).reverse)

/-- Model of Python `s.startswith(p)`. -/
def pyStartsWith (p s : String) : Bool :=
  List.isPrefixOf p.data s.data

/-- Model of Python slicing `s[n:]`. -/
def pyDrop (n : Nat) (s : String) : String :=
  String.mk (s.data.drop n)

/-- Model of Python `s.split('\n')` at the character-list level.
`split` always returns at least one (possibly empty) piece. -/
def splitNlChars : List Char → List (List Char)
  | [] => [[]]
  | c :: rest =>
    if c = '\n' then [] :: splitNlChars rest
    else
      match splitNlChars rest with
      | [] => [[c]]
      | l :: ls => (c :: l) :: ls

/-- Model of Python `s.split('\n')`. -/
def pySplitNl (s : String) : List String :=
  (splitNlChars s.data).map (fun l => String.mk l)

/-- Model of Python `'\n'.join(l)`. -/
def pyJoinNl : List String → String
  | [] => ""
  | [s] => s
  | s :: s₂ :: rest => s ++ "\n" ++ pyJoinNl (s₂ :: rest)

/-- Character-list version of `'\n'.join`. -/
def joinNlChars : List (List Char) → List Char
  | [] => []
  | [l] => l
  | l :: l₂ :: rest => l ++ '\n' :: joinNlChars (l₂ :: rest)

/-- The list of lines of a text: empty text has no lines, otherwise the
pieces obtained by splitting at every newline. -/
def linesOf (s : String) : List String :=
  if s = "" then [] else pySplitNl s

/-- JSON values, as produced by `json.loads` (numbers restricted to the
integers; no claim in this development inspects a numeric field). -/
inductive Json where
  | null : Json
  | bool (b : Bool) : Json
  | num (n : Int) : Json
  | str (s : String) : Json
  | arr (elts : List Json) : Json
  | obj (fields : List (String × Json)) : Json

/-- First-occurrence lookup in a JSON object's field list. -/
def lookupField : List (String × Json) → String → Option Json
  | [], _ => none
  | (k', v) :: rest, k => if k' = k then some v else lookupField rest k

/-- Model of Python `d.get(k)` / `k in d` on a parsed JSON object; `none`
for a non-object (the client only applies it to object events). -/
def Json.get : Json → String → Option Json
  | .obj fields, k => lookupField fields k
  | _, _ => none

/-- Python truthiness of a JSON value (`if not x` checks in the drivers). -/
def Json.truthy : Json → Bool
  | .null => false
  | .bool b => b
  | .num n => n ≠ 0
  | .str s => s ≠ ""
  | .arr elts => !elts.isEmpty
  | .obj fields => !fields.isEmpty

/-- Python `str()` of a JSON scalar, used when a vendor number is rendered
into the prompt f-string.  Container rendering is abbreviated (no claim
depends on it). -/
def pyStr : Json → String
  | .null => "None"
  | .bool true => "True"
  | .bool false => "False"
  | .num n => toString n
  | .str s => s
  | .arr _ => "<list>"
  | .obj _ => "<dict>"

/-- Python exceptions that the modelled code can raise. -/
inductive PyExc where
  | fileNotFoundError : PyExc
  | jsonDecodeError : PyExc
  | attributeError : PyExc
deriving DecidableEq

/-- Python `str(e)` for a recorded batch error (abbreviated rendering). -/
def pyExcStr : PyExc → String
  | .fileNotFoundError => "FileNotFoundError"
  | .jsonDecodeError => "JSONDecodeError"
  | .attributeError => "AttributeError"

/-- The two pieces of conversation state held on a
`LibreChatInvoiceExtractor` instance (`self.conversation_id`,
`self.parent_message_id`), both `None` initially. -/
structure Client where
  conversation_id : Option Json
  parent_message_id : Option Json

/-- A fresh client, as built by `__init__`. -/
def initClient : Client := ⟨none, none⟩

/-- Oracles for everything outside the client process: the HTTP backend
(login / upload / ask endpoints), the filesystem, and Python's
`json.loads` (which returns `none` exactly when it would raise
`json.JSONDecodeError`).  The ask endpoint is keyed by the full request
payload, so the server may react to any part of the request. -/
structure Env where
  loginStatus : Nat
  fs : String → Option String
  uploadStatus : String → Nat
  uploadBody : String → Json
  askStatus : Json → Nat
  askLines : Json → List String
  loads : String → Option Json

/-- The nil-UUID sentinel used for `parentMessageId` when no previous
message id is held. -/
def nilUuid : String := "00000000-0000-0000-0000-000000000000"

/-- Default model name (`qwen2.5-3b-instruct-invoice-extractor-gtx1650`). -/
def defaultModel : String := "qwen2.5-3b-instruct-invoice-extractor-gtx1650"

/-- One rendered vendor line of the prompt: the f-string
`f"- {name}: {number}"`. -/
def fmtVendor (p : String × String) : String :=
  "- " ++ p.1 ++ ": " ++ p.2

/-- The vendor list block of the prompt:
`"\n".join(f"- {name}: {number}" for name, number in vendor_mappings.items())`. -/
def vendorListStr (vendors : List (String × String)) : String :=
  pyJoinNl (vendors.map fmtVendor)

/-- The extraction prompt text before the `{vendor_list}` splice point. -/
def promptPre : String := "Extract all invoice information from the provided text and return a JSON object with the following structure. Follow these rules strictly:

1. Extract ONLY from the provided context - never guess or infer missing data
2. Return null for any field not explicitly present in the text
3. Follow the exact schema below
4. Use ISO 8601 dates (YYYY-MM-DD)
5. Use ISO 4217 currency codes (e.g., \"EUR\", \"USD\")
6. Use dot as decimal separator for all numbers (e.g., 1234.56)
7. Do not add explanations, prose, or additional fields
8. Output JSON only

JSON Schema:
\x7b
  \"vendor\": null,
  \"vendor_number\": null,
  \"invoice_number\": null,
  \"invoice_date\": null,
  \"due_date\": null,
  \"currency\": null,
  \"total_amount\": null,
  \"vat_amount\": null,
  \"vat_rate\": null,
  \"item_summary\": null,
  \"line_items\": [
    \x7b
      \"description\": null,
      \"quantity\": null,
      \"unit_price\": null,
      \"amount\": null
    \x7d
  ]
\x7d

Field Definitions:
- vendor: The name of the company/person issuing the invoice
- vendor_number: The supplier/vendor number (Lieferantennummer) if present
- invoice_number: The invoice reference/number
- invoice_date: The date the invoice was issued (YYYY-MM-DD)
- due_date: The payment due date (YYYY-MM-DD)
- currency: ISO 4217 currency code (e.g., \"EUR\", \"USD\", \"GBP\")
- total_amount: Total invoice amount including VAT (number with dot decimal)
- vat_amount: Total VAT/tax amount (number with dot decimal)
- vat_rate: VAT/tax rate as a percentage (e.g., 19 for 19%, 7 for 7%)
- item_summary: Brief summary of all line items (max 15 words, e.g., \"Office chairs, desks, and supplies\")
- line_items: Array of invoice line items, each with:
  - description: Item/service description
  - quantity: Number of units (number)
  - unit_price: Price per unit (number with dot decimal)
  - amount: Total for this line (number with dot decimal)

Return ONLY the JSON object. Do not include any markdown code blocks, explanations, or additional text.

If vendor numbers are not on invoices, provide them in the prompt:

Known vendor numbers:
"

/-- The extraction prompt text after the `{vendor_list}` splice point. -/
def promptPost : String := "

If you identify the vendor name, use the corresponding vendor_number from the list above."

/-- The full extraction prompt sent as the `text` field of the payload. -/
def promptText (vendors : List (String × String)) : String :=
  promptPre ++ vendorListStr vendors ++ promptPost

/-- Python `file_data.get(k)` rendered as a JSON payload field value
(`None` becomes JSON `null` when the payload is serialised). -/
def fdField (file_data : Json) (k : String) : Json :=
  (file_data.get k).getD .null

/-- The request payload built by `extract_invoice` (source lines 187–204):
`conversation_id or "new"` and `self.parent_message_id or nil-UUID` use
Python truthiness. -/
def mkPayload (c : Client) (file_data : Json) (vendors : List (String × String))
    (modelName : String) (convArg : Option String) : Json :=
  .obj
    [ ("endpoint", .str "agents"),
      ("model", .str modelName),
      ("text", .str (promptText vendors)),
      ("conversationId", .str (match convArg with
        | none => "new"
        | some s => if s = "" then "new" else s)),
      ("parentMessageId", match c.parent_message_id with
        | none => .str nilUuid
        | some j => if j.truthy then j else .str nilUuid),
      ("files", .arr
        [ .obj
            [ ("file_id", fdField file_data "file_id"),
              ("filepath", fdField file_data "filepath"),
              ("filename", fdField file_data "filename"),
              ("type", fdField file_data "type"),
              ("height", fdField file_data "height"),
              ("width", fdField file_data "width") ] ]) ]

/-- `upload_file` (source lines 63–100).  Returns the file-metadata result,
the list of upload requests actually sent, and the console diagnostics of
the file-not-found branch (other console output is not modelled). -/
def upload_file (env : Env) (file_path : String) :
    Option Json × List String × List String :=
  match env.fs file_path with
  | none => (none, [], ["✗ File not found: " ++ file_path])
  | some _ =>
    if env.uploadStatus file_path = 200 then
      (some (env.uploadBody file_path), [file_path], [])
    else
      (none, [file_path], [])

/-- One iteration of the streaming-response loop of `extract_invoice`
(source lines 222–240).  The state is the pair
(`full_response`, client conversation state); the returned flag is `true`
exactly when the loop `break`s on a `[DONE]` payload. -/
def stepLine (loads : String → Option Json) (st : Json × Client)
    (line : String) : (Json × Client) × Bool :=
  if line = "" then (st, false)
  else if pyStartsWith "data: " line then
    let data_str := pyDrop 6 line
    if data_str = "[DONE]" then (st, true)
    else
      match loads data_str with
      | none => (st, false)
      | some data =>
        let full := match data.get "text" with
          | some t => t
          | none => st.1
        let c₁ := match data.get "conversationId" with
          | some v => { st.2 with conversation_id := some v }
          | none => st.2
        let c₂ := match data.get "messageId" with
          | some v => { c₁ with parent_message_id := some v }
          | none => c₁
        ((full, c₂), false)
  else (st, false)

/-- The full streaming loop: fold `stepLine` over the response lines,
stopping early when the break flag is raised. -/
def runLines (loads : String → Option Json) (st : Json × Client) :
    List String → Json × Client
  | [] => st
  | l :: rest =>
    match stepLine loads st l with
    | (st', true) => st'
    | (st', false) => runLines loads st' rest

/-- The markdown-fence handling of the final answer (source lines 247–251):
strip surrounding whitespace, then if the text starts with a ``` marker
drop its first and last lines (`lines[1:-1]`). -/
def strip_code_fence (full_response : String) : String :=
  let json_text := pyStrip full_response
  if pyStartsWith "```" json_text then
    pyJoinNl (((pySplitNl json_text).drop 1).dropLast)
  else json_text

/-- Parsing of the final answer text (source lines 245–258): fence
stripping followed by `json.loads`; `none` models the caught
`JSONDecodeError` (error and raw text reported, `None` returned). -/
def parse_final (loads : String → Option Json) (full_response : String) :
    Option Json :=
  loads (strip_code_fence full_response)

/-- `extract_invoice` (source lines 102–258).  Returns the extraction
result — `Except.error` models an uncaught Python exception
(`AttributeError` from `full_response.strip()` when a streamed `text`
field was not a string) — together with the client state after the call. -/
def extract_invoice (env : Env) (c : Client) (file_data : Json)
    (vendors : List (String × String)) (modelName : String)
    (convArg : Option String) : Except PyExc (Option Json) × Client :=
  let payload := mkPayload c file_data vendors modelName convArg
  if env.askStatus payload ≠ 200 then (.ok none, c)
  else
    match runLines env.loads (.str "", c) (env.askLines payload) with
    | (.str s, c') => (.ok (parse_final env.loads s), c')
    | (_, c') => (.error .attributeError, c')

/-- The hard-coded default vendor mappings (source lines 276–282). -/
def defaultVendorMappings : List (String × String) :=
  [ ("ACME Corp", "V12345"),
    ("Global Supplies GmbH", "V67890"),
    ("Tech Solutions Ltd", "V24680"),
    ("Office Depot", "V13579"),
    ("Staples Inc", "V98765") ]

/-- A parsed vendor-mappings JSON value as the `Dict[str, str]` the code
iterates over: object fields with values rendered as in the prompt
f-string; a non-object yields no mappings. -/
def toVendorPairs : Json → List (String × String)
  | .obj fields => fields.map (fun p => (p.1, pyStr p.2))
  | _ => []

/-- `load_vendor_mappings` (source lines 261–282): if a vendors path is
given, is truthy, and exists, `json.load` it (a malformed file raises an
uncaught `JSONDecodeError`); otherwise return the defaults. -/
def load_vendor_mappings (env : Env) (vendors_file : Option String) :
    Except PyExc (List (String × String)) :=
  match vendors_file with
  | none => .ok defaultVendorMappings
  | some p =>
    if p = "" then .ok defaultVendorMappings
    else
      match env.fs p with
      | none => .ok defaultVendorMappings
      | some content =>
        match env.loads content with
        | none => .error .jsonDecodeError
        | some j => .ok (toVendorPairs j)

/-- Helper for `Path.with_suffix`: given the reversed character list of a
path, return the reversed stem if the final component has a (non-leading)
extension. -/
def chopExtRev : List Char → Option (List Char)
  | [] => none
  | c :: rest =>
    if c = '.' then
      if rest = [] || rest.head? = some '/' then none else some rest
    else if c = '/' then none
    else chopExtRev rest

/-- Model of `Path(p).with_suffix('.json')`. -/
def withSuffixJson (p : String) : String :=
  match chopExtRev p.data.reverse with
  | some stem => String.mk stem.reverse ++ ".json"
  | none => p ++ ".json"

/-- The CLI arguments of the single-file driver that the modelled part of
`main` consumes (credentials and URL live in the oracles). -/
structure Args where
  pdf : String
  vendors : Option String
  modelName : String
  output : Option String

/-- `main` of the single-file CLI (source lines 285–377), after argument
parsing: returns the exit code and the list of written output files, or
an uncaught exception.  `if not file_data` / `if not invoice_data` are
Python truthiness checks; `args.output or default` likewise. -/
def main_run (env : Env) (a : Args) :
    Except PyExc (Nat × List (String × Json)) :=
  if env.loginStatus ≠ 200 then .ok (1, [])
  else
    match load_vendor_mappings env a.vendors with
    | .error e => .error e
    | .ok vendors =>
      match (upload_file env a.pdf).1 with
      | none => .ok (1, [])
      | some fd =>
        if ¬ fd.truthy then .ok (1, [])
        else
          match extract_invoice env initClient fd vendors a.modelName none with
          | (.error e, _) => .error e
          | (.ok none, _) => .ok (1, [])
          | (.ok (some j), _) =>
            if ¬ j.truthy then .ok (1, [])
            else
              match j with
              | .obj _ =>
                let output_path := match a.output with
                  | some o => if o = "" then withSuffixJson a.pdf else o
                  | none => withSuffixJson a.pdf
                .ok (0, [(output_path, j)])
              | _ => .error .attributeError

/-- One entry of the batch driver's `results` list. -/
inductive BatchEntry where
  | success (file : String) (data : Json) : BatchEntry
  | error (file : String) (err : String) : BatchEntry

/-- The `file` field of a batch summary entry. -/
def BatchEntry.file : BatchEntry → String
  | .success f _ => f
  | .error f _ => f

/-- The `status` field of a batch summary entry. -/
def BatchEntry.status : BatchEntry → String
  | .success _ _ => "success"
  | .error _ _ => "error"

/-- The JSON object written for a batch summary entry. -/
def BatchEntry.toJson : BatchEntry → Json
  | .success f d => .obj [("file", .str f), ("status", .str "success"), ("data", d)]
  | .error f e => .obj [("file", .str f), ("status", .str "error"), ("error", .str e)]

/-- The per-file body of the batch loop (source lines 72–107): upload,
extract, write the output file, and record a summary entry.  A falsy
upload or extraction result hits a `continue` — no entry, no output.  An
uncaught exception from `extract_invoice` is caught by the `except` arm
and recorded as an `error` entry.  Returns the client state after the
file, the optional summary entry, and the optional written output. -/
def processOne (env : Env) (c : Client) (vendors : List (String × String))
    (pdf : String) : Client × Option BatchEntry × Option (String × Json) :=
  match (upload_file env pdf).1 with
  | none => (c, none, none)
  | some fd =>
    if ¬ fd.truthy then (c, none, none)
    else
      match extract_invoice env c fd vendors defaultModel none with
      | (.error e, c') => (c', some (.error pdf (pyExcStr e)), none)
      | (.ok none, c') => (c', none, none)
      | (.ok (some j), c') =>
        if j.truthy then
          (c', some (.success pdf j), some (withSuffixJson pdf, j))
        else (c', none, none)

/-- The batch loop over all PDFs, threading the client's conversation
state and accumulating summary entries and written outputs in order. -/
def processAll (env : Env) (c : Client) (vendors : List (String × String)) :
    List String → List BatchEntry × List (String × Json)
  | [] => ([], [])
  | pdf :: rest =>
    match processOne env c vendors pdf with
    | (c', entry, out) =>
      match processAll env c' vendors rest with
      | (entries, outs) => (entry.toList ++ entries, out.toList ++ outs)

/-- How a batch run can end (when no exception escapes). -/
inductive BatchOutcome where
  | loginFailed : BatchOutcome
  | noPdfs : BatchOutcome
  | completed (summary : List BatchEntry) (outputs : List (String × Json)) :
      BatchOutcome

/-- `process_invoice_folder` (batch driver, source lines 21–125): login,
read the vendors file with a bare `open` (a missing file raises an
uncaught `FileNotFoundError`, a malformed one an uncaught
`JSONDecodeError`), glob the folder (modelled as the given list of PDF
names), run the loop, and finally write `batch_summary.json`. -/
def process_invoice_folder (env : Env) (pdfs : List String)
    (vendors_file : String) : Except PyExc BatchOutcome :=
  if env.loginStatus ≠ 200 then .ok .loginFailed
  else
    match env.fs vendors_file with
    | none => .error .fileNotFoundError
    | some content =>
      match env.loads content with
      | none => .error .jsonDecodeError
      | some vj =>
        if pdfs.isEmpty then .ok .noPdfs
        else
          match processAll env initClient (toVendorPairs vj) pdfs with
          | (entries, outs) =>
            .ok (.completed entries
              (outs ++ [("batch_summary.json", .arr (entries.map BatchEntry.toJson))]))

/-- The `text` value carried by a streamed line, when the line is a
`data: `-framed event that parses and contains that field. -/
def eventText (loads : String → Option Json) (l : String) : Option Json :=
  if pyStartsWith "data: " l then
    (loads (pyDrop 6 l)).bind (fun j => j.get "text")
  else none

/-- The `messageId` value carried by a streamed line, when present. -/
def eventMsgId (loads : String → Option Json) (l : String) : Option Json :=
  if pyStartsWith "data: " l then
    (loads (pyDrop 6 l)).bind (fun j => j.get "messageId")
  else none

/-- Spec-side view of the stream: the `text` values of the well-formed
`data: `-events occurring strictly before the first `data: [DONE]` line. -/
def textEvents (loads : String → Option Json) (lines : List String) : List Json :=
  (lines.takeWhile (fun l => l ≠ "data: [DONE]")).filterMap (eventText loads)

/-- Spec-side view of the stream: the `messageId` values of the
well-formed `data: `-events before the first `data: [DONE]` line. -/
def msgIdEvents (loads : String → Option Json) (lines : List String) : List Json :=
  (lines.takeWhile (fun l => l ≠ "data: [DONE]")).filterMap (eventMsgId loads)

/-- The `x or nil-UUID` truthiness fallback applied to the stored parent
message id when the payload is built. -/
def nilFallback : Option Json → Json
  | none => .str nilUuid
  | some j => if j.truthy then j else .str nilUuid

/-- The summary entry a PDF would produce when processed with a fresh
client (used to state that per-file outcomes are independent of the
conversation state threaded through the batch). -/
def fileOutcome (env : Env) (vendors : List (String × String)) (pdf : String) :
    Option BatchEntry :=
  (processOne env initClient vendors pdf).2.1

/-- The output file a PDF would produce when processed with a fresh
client. -/
def fileOutput (env : Env) (vendors : List (String × String)) (pdf : String) :
    Option (String × Json) :=
  (processOne env initClient vendors pdf).2.2

/-- The spec's fence-stripping transformation, stated on an already
trimmed text exactly as the spec words it: a text beginning with a ```
marker loses its first and last lines, any other text is left unchanged. -/
def specFenceStrip (t : String) : String :=
  if pyStartsWith "```" t then pyJoinNl (((pySplitNl t).drop 1).dropLast)
  else t

/-- The per-file extraction result used by the batch scenarios below. -/
def jOut : Json := .obj [("invoice_number", .str "1")]

/-- The vendors JSON used by the concrete batch scenarios. -/
def vj3 : Json := .obj [("ACME Corp", .str "V1")]

/-- Concrete backend for the three-file batch scenario: every upload
succeeds except `b.pdf` (HTTP 500), every extraction streams one event
whose cumulative text parses to `jOut`. -/
def env3 : Env where
  loginStatus := 200
  fs := fun _ => some "V"
  uploadStatus := fun p => if p = "b.pdf" then 500 else 200
  uploadBody := fun p => .obj [("file_id", .str p)]
  askStatus := fun _ => 200
  askLines := fun _ => ["data: t"]
  loads := fun s =>
    if s = "V" then some vj3
    else if s = "t" then some (.obj [("text", .str "J")])
    else if s = "J" then some jOut
    else none

/-- The folder contents of the three-file batch scenario. -/
def pdfs3 : List String := ["a.pdf", "b.pdf", "c.pdf"]

/-- Concrete backend where the model's final answer `BAD` is not valid
JSON (the `loads` oracle rejects it). -/
def env5 : Env where
  loginStatus := 200
  fs := fun _ => some "V"
  uploadStatus := fun _ => 200
  uploadBody := fun p => .obj [("file_id", .str p)]
  askStatus := fun _ => 200
  askLines := fun _ => ["data: t"]
  loads := fun s =>
    if s = "V" then some vj3
    else if s = "t" then some (.obj [("text", .str "BAD")])
    else none

/-- Concrete backend where extraction succeeds with the empty JSON object
`\x7b\x7d` (valid JSON, falsy in Python). -/
def env6 : Env where
  loginStatus := 200
  fs := fun _ => some "V"
  uploadStatus := fun _ => 200
  uploadBody := fun p => .obj [("file_id", .str p)]
  askStatus := fun _ => 200
  askLines := fun _ => ["data: t"]
  loads := fun s =>
    if s = "t" then some (.obj [("text", .str "E")])
    else if s = "E" then some (.obj [])
    else none

/-- CLI arguments for the empty-object scenario. -/
def args6 : Args := ⟨"a.pdf", none, defaultModel, none⟩

/-- Concrete backend whose single streamed event carries an empty-string
`messageId`. -/
def env10 : Env where
  loginStatus := 200
  fs := fun _ => some ""
  uploadStatus := fun _ => 200
  uploadBody := fun p => .obj [("file_id", .str p)]
  askStatus := fun _ => 200
  askLines := fun _ => ["data: m"]
  loads := fun s =>
    if s = "m" then some (.obj [("messageId", .str "")])
    else none

/-- The file metadata used in the `messageId` scenario. -/
def fd10 : Json := .obj [("file_id", .str "x")]

/-- The client state after the first extraction call of the `messageId`
scenario. -/
def c10 : Client := (extract_invoice env10 initClient fd10 [] defaultModel none).2

/-- Concrete environment in which no filesystem path exists. -/
def env8 : Env where
  loginStatus := 200
  fs := fun _ => none
  uploadStatus := fun _ => 200
  uploadBody := fun _ => .null
  askStatus := fun _ => 200
  askLines := fun _ => []
  loads := fun _ => none

/-- Concrete backend for a fully successful single-file CLI run. -/
def env0 : Env where
  loginStatus := 200
  fs := fun _ => some ""
  uploadStatus := fun _ => 200
  uploadBody := fun p => .obj [("file_id", .str p)]
  askStatus := fun _ => 200
  askLines := fun _ => ["data: t"]
  loads := fun s =>
    if s = "t" then some (.obj [("text", .str "G")])
    else if s = "G" then some (.obj [("vendor", .str "A")])
    else none

/-- CLI arguments for the fully successful run. -/
def args0 : Args := ⟨"inv.pdf", none, defaultModel, none⟩

theorem data_append (a b : String) : (a ++ b).data = a.data ++ b.data := rfl

theorem mk_data (s : String) : String.mk s.data = s := by
  cases s
  rfl

theorem data_inj {a b : String} (h : a.data = b.data) : a = b := by
  cases a
  cases b
  exact congrArg String.mk h

theorem splitNlChars_ne_nil (cs : List Char) : splitNlChars cs ≠ [] := by
  induction cs with
  | nil => simp [splitNlChars]
  | cons c rest ih =>
    simp only [splitNlChars]
    split
    · simp
    · cases h : splitNlChars rest with
      | nil => exact absurd h ih
      | cons l ls => simp

theorem splitNlChars_nlFree (cs : List Char) (h : '\n' ∉ cs) :
    splitNlChars cs = [cs] := by
  induction cs with
  | nil => rfl
  | cons c rest ih =>
    have hc : ¬ c = '\n' := fun hc => h (hc ▸ List.mem_cons_self c rest)
    have hrest : '\n' ∉ rest := fun hr => h (List.mem_cons_of_mem c hr)
    simp only [splitNlChars, if_neg hc, ih hrest]

theorem splitNlChars_append_nl (xs ys : List Char) (h : '\n' ∉ xs) :
    splitNlChars (xs ++ '\n' :: ys) = xs :: splitNlChars ys := by
  induction xs with
  | nil => simp [splitNlChars]
  | cons c rest ih =>
    have hc : ¬ c = '\n' := fun hc => h (hc ▸ List.mem_cons_self c rest)
    have hrest : '\n' ∉ rest := fun hr => h (List.mem_cons_of_mem c hr)
    simp only [List.cons_append, splitNlChars, List.append_eq, if_neg hc, ih hrest]

theorem splitNlChars_append_last (xs ys : List Char) (h : '\n' ∉ ys) :
    splitNlChars (xs ++ '\n' :: ys) = splitNlChars xs ++ [ys] := by
  induction xs with
  | nil => simp [splitNlChars, splitNlChars_nlFree ys h]
  | cons c rest ih =>
    by_cases hc : c = '\n'
    · subst hc
      simp only [List.cons_append, splitNlChars, List.append_eq, if_pos rfl, ih]
      simp
    · simp only [List.cons_append, splitNlChars, List.append_eq, if_neg hc, ih]
      cases hs : splitNlChars rest with
      | nil => exact absurd hs (splitNlChars_ne_nil rest)
      | cons l ls => simp [hs]

theorem joinNlChars_splitNlChars (cs : List Char) :
    joinNlChars (splitNlChars cs) = cs := by
  induction cs with
  | nil => rfl
  | cons c rest ih =>
    simp only [splitNlChars]
    split
    · rename_i hc
      cases hs : splitNlChars rest with
      | nil => exact absurd hs (splitNlChars_ne_nil rest)
      | cons l ls =>
        subst hc
        rw [hs] at ih
        simpa [joinNlChars] using ih
    · cases hs : splitNlChars rest with
      | nil => exact absurd hs (splitNlChars_ne_nil rest)
      | cons l ls =>
        rw [hs] at ih
        cases ls with
        | nil => simpa [joinNlChars] using congrArg (c :: ·) ih
        | cons l₂ ls₂ => simpa [joinNlChars] using congrArg (c :: ·) ih

theorem pyJoinNl_map_mk (ls : List (List Char)) :
    pyJoinNl (ls.map (fun l => String.mk l)) = String.mk (joinNlChars ls) := by
  induction ls with
  | nil => rfl
  | cons l rest ih =>
    cases rest with
    | nil => rfl
    | cons l₂ rest₂ =>
      simp only [List.map_cons, pyJoinNl, joinNlChars] at ih ⊢
      rw [ih]
      apply data_inj
      simp [data_append]

theorem pyJoinNl_pySplitNl (s : String) : pyJoinNl (pySplitNl s) = s := by
  rw [pySplitNl, pyJoinNl_map_mk, joinNlChars_splitNlChars, mk_data]

theorem done_line_eq (l : String) (h₁ : pyStartsWith "data: " l = true)
    (h₂ : pyDrop 6 l = "[DONE]") : l = "data: [DONE]" := by
  rw [pyStartsWith, List.isPrefixOf_iff_prefix] at h₁
  obtain ⟨t, ht⟩ := h₁
  have hdrop : l.data.drop 6 = t := by
    rw [← ht]
    exact List.drop_left "data: ".data t
  rw [pyDrop, hdrop] at h₂
  have ht' : t = "[DONE]".data := by
    have := congrArg String.data h₂
    simpa using this
  apply data_inj
  rw [← ht, ht']
  rfl

theorem stepLine_snd (loads : String → Option Json) (st : Json × Client)
    (l : String) (h : l ≠ "data: [DONE]") : (stepLine loads st l).2 = false := by
  by_cases he : l = ""
  · subst he
    rfl
  · rw [stepLine, if_neg he]
    by_cases hp : pyStartsWith "data: " l = true
    · rw [if_pos hp]
      have hd : ¬ pyDrop 6 l = "[DONE]" := fun hd => h (done_line_eq l hp hd)
      rw [if_neg hd]
      cases loads (pyDrop 6 l) <;> rfl
    · simp only [hp, Bool.false_eq_true, if_false]

theorem stepLine_full (loads : String → Option Json) (st : Json × Client)
    (l : String) (h : l ≠ "data: [DONE]") :
    (stepLine loads st l).1.1 =
      match eventText loads l with
      | some t => t
      | none => st.1 := by
  by_cases he : l = ""
  · subst he
    rfl
  · rw [stepLine, if_neg he, eventText]
    by_cases hp : pyStartsWith "data: " l = true
    · rw [if_pos hp, if_pos hp]
      have hd : ¬ pyDrop 6 l = "[DONE]" := fun hd => h (done_line_eq l hp hd)
      rw [if_neg hd]
      cases hld : loads (pyDrop 6 l) with
      | none => rfl
      | some data =>
        simp only [Option.some_bind]
    · simp only [hp, Bool.false_eq_true, if_false]

theorem stepLine_parent (loads : String → Option Json) (st : Json × Client)
    (l : String) (h : l ≠ "data: [DONE]") :
    (stepLine loads st l).1.2.parent_message_id =
      match eventMsgId loads l with
      | some v => some v
      | none => st.2.parent_message_id := by
  by_cases he : l = ""
  · subst he
    rfl
  · rw [stepLine, if_neg he, eventMsgId]
    by_cases hp : pyStartsWith "data: " l = true
    · rw [if_pos hp, if_pos hp]
      have hd : ¬ pyDrop 6 l = "[DONE]" := fun hd => h (done_line_eq l hp hd)
      rw [if_neg hd]
      cases hld : loads (pyDrop 6 l) with
      | none => rfl
      | some data =>
        simp only [Option.some_bind]
        cases data.get "messageId" with
        | none => cases data.get "conversationId" <;> rfl
        | some v => cases data.get "conversationId" <;> rfl
    · simp only [hp, Bool.false_eq_true, if_false]

theorem runLines_fst (loads : String → Option Json) (lines : List String) :
    ∀ (f : Json) (c : Client),
      (runLines loads (f, c) lines).1 = (textEvents loads lines).getLastD f := by
  induction lines with
  | nil => intro f c; rfl
  | cons l rest ih =>
    intro f c
    by_cases hd : l = "data: [DONE]"
    · subst hd
      have hstep : stepLine loads (f, c) "data: [DONE]" = ((f, c), true) := rfl
      simp only [runLines, hstep, textEvents, List.takeWhile_cons]
      simp [List.getLastD]
    · have hsnd := stepLine_snd loads (f, c) l hd
      have hfst := stepLine_full loads (f, c) l hd
      cases hstep : stepLine loads (f, c) l with
      | mk st' b =>
        rw [hstep] at hsnd hfst
        simp only at hsnd
        subst hsnd
        cases st' with
        | mk f' c' =>
          simp only at hfst
          simp only [runLines, hstep]
          have htw : textEvents loads (l :: rest) =
              match eventText loads l with
              | some t => t :: textEvents loads rest
              | none => textEvents loads rest := by
            simp only [textEvents, List.takeWhile_cons, decide_eq_true_eq]
            rw [if_pos hd, List.filterMap_cons]
            cases eventText loads l <;> rfl
          rw [htw]
          cases het : eventText loads l with
          | none =>
            rw [het] at hfst
            simp only at hfst
            subst hfst
            exact ih _ c'
          | some t =>
            rw [het] at hfst
            simp only at hfst
            subst hfst
            rw [List.getLastD_cons]
            exact ih _ c'

theorem runLines_parent (loads : String → Option Json) (lines : List String) :
    ∀ (f : Json) (c : Client),
      (runLines loads (f, c) lines).2.parent_message_id =
        ((msgIdEvents loads lines).map some).getLastD c.parent_message_id := by
  induction lines with
  | nil => intro f c; rfl
  | cons l rest ih =>
    intro f c
    by_cases hd : l = "data: [DONE]"
    · subst hd
      have hstep : stepLine loads (f, c) "data: [DONE]" = ((f, c), true) := rfl
      simp only [runLines, hstep, msgIdEvents, List.takeWhile_cons]
      simp [List.getLastD]
    · have hsnd := stepLine_snd loads (f, c) l hd
      have hpar := stepLine_parent loads (f, c) l hd
      cases hstep : stepLine loads (f, c) l with
      | mk st' b =>
        rw [hstep] at hsnd hpar
        simp only at hsnd
        subst hsnd
        cases st' with
        | mk f' c' =>
          simp only at hpar
          simp only [runLines, hstep]
          have htw : msgIdEvents loads (l :: rest) =
              match eventMsgId loads l with
              | some v => v :: msgIdEvents loads rest
              | none => msgIdEvents loads rest := by
            simp only [msgIdEvents, List.takeWhile_cons, decide_eq_true_eq]
            rw [if_pos hd, List.filterMap_cons]
            cases eventMsgId loads l <;> rfl
          rw [htw]
          cases het : eventMsgId loads l with
          | none =>
            rw [het] at hpar
            simp only at hpar
            rw [ih f' c', hpar]
          | some v =>
            rw [het] at hpar
            simp only at hpar
            rw [List.map_cons, List.getLastD_cons, ih f' c']
            rw [show c'.parent_message_id = some v from hpar]

theorem extract_not200 (env : Env) (c : Client) (fd : Json)
    (v : List (String × String)) (m : String) (conv : Option String)
    (h : ¬ env.askStatus (mkPayload c fd v m conv) = 200) :
    extract_invoice env c fd v m conv = (.ok none, c) := by
  simp only [extract_invoice]
  rw [if_pos h]

theorem extract_snd200 (env : Env) (c : Client) (fd : Json)
    (v : List (String × String)) (m : String) (conv : Option String)
    (h : env.askStatus (mkPayload c fd v m conv) = 200) :
    (extract_invoice env c fd v m conv).2 =
      (runLines env.loads (.str "", c)
        (env.askLines (mkPayload c fd v m conv))).2 := by
  simp only [extract_invoice]
  rw [if_neg (fun hne => hne h)]
  cases hr : runLines env.loads (.str "", c)
      (env.askLines (mkPayload c fd v m conv)) with
  | mk j c' => cases j <;> rfl

theorem extract_fst200 (env : Env) (c : Client) (fd : Json)
    (v : List (String × String)) (m : String) (conv : Option String)
    (h : env.askStatus (mkPayload c fd v m conv) = 200) :
    (extract_invoice env c fd v m conv).1 =
      match (runLines env.loads (.str "", c)
          (env.askLines (mkPayload c fd v m conv))).1 with
      | .str s => Except.ok (parse_final env.loads s)
      | _ => Except.error .attributeError := by
  simp only [extract_invoice]
  rw [if_neg (fun hne => hne h)]
  cases hr : runLines env.loads (.str "", c)
      (env.askLines (mkPayload c fd v m conv)) with
  | mk j c' => cases j <;> rfl

theorem mkPayload_files_eq (c c' : Client) (fd : Json)
    (v : List (String × String)) (m : String) (conv : Option String) :
    (mkPayload c fd v m conv).get "files" =
      (mkPayload c' fd v m conv).get "files" := rfl

theorem extract_fst_indep (env : Env) (fd : Json)
    (v : List (String × String)) (m : String)
    (hask : ∀ p q : Json, p.get "files" = q.get "files" →
      env.askStatus p = env.askStatus q ∧ env.askLines p = env.askLines q)
    (c c' : Client) :
    (extract_invoice env c fd v m none).1 =
      (extract_invoice env c' fd v m none).1 := by
  obtain ⟨hs, hl⟩ := hask (mkPayload c fd v m none) (mkPayload c' fd v m none)
    (mkPayload_files_eq c c' fd v m none)
  by_cases h200 : env.askStatus (mkPayload c fd v m none) = 200
  · have h200' : env.askStatus (mkPayload c' fd v m none) = 200 :=
      hs.symm.trans h200
    rw [extract_fst200 env c fd v m none h200,
      extract_fst200 env c' fd v m none h200', ← hl]
    rw [runLines_fst, runLines_fst]
  · have h200' : ¬ env.askStatus (mkPayload c' fd v m none) = 200 :=
      fun hh => h200 (hs.trans hh)
    rw [extract_not200 env c fd v m none h200,
      extract_not200 env c' fd v m none h200']

theorem processOne_snd_indep (env : Env) (v : List (String × String))
    (pdf : String)
    (hask : ∀ p q : Json, p.get "files" = q.get "files" →
      env.askStatus p = env.askStatus q ∧ env.askLines p = env.askLines q)
    (c c' : Client) :
    (processOne env c v pdf).2 = (processOne env c' v pdf).2 := by
  simp only [processOne]
  cases hu : (upload_file env pdf).1 with
  | none => rfl
  | some fd =>
    dsimp only
    by_cases ht : fd.truthy = true
    · rw [if_neg (fun hh => hh ht), if_neg (fun hh => hh ht)]
      have hfst := extract_fst_indep env fd v defaultModel hask c c'
      cases hx : extract_invoice env c fd v defaultModel none with
      | mk r s =>
        cases hx' : extract_invoice env c' fd v defaultModel none with
        | mk r' s' =>
          rw [hx, hx'] at hfst
          simp only at hfst
          subst hfst
          cases r with
          | error e => rfl
          | ok jo =>
            cases jo with
            | none => rfl
            | some j => by_cases hj : j.truthy = true <;> simp [hj]
    · rw [if_pos ht, if_pos ht]

theorem processOne_snd_eq (env : Env) (v : List (String × String))
    (pdf : String)
    (hask : ∀ p q : Json, p.get "files" = q.get "files" →
      env.askStatus p = env.askStatus q ∧ env.askLines p = env.askLines q)
    (c : Client) :
    (processOne env c v pdf).2 = (fileOutcome env v pdf, fileOutput env v pdf) := by
  rw [processOne_snd_indep env v pdf hask c initClient]
  rfl

theorem processAll_eq (env : Env) (v : List (String × String))
    (hask : ∀ p q : Json, p.get "files" = q.get "files" →
      env.askStatus p = env.askStatus q ∧ env.askLines p = env.askLines q) :
    ∀ (pdfs : List String) (c : Client),
      processAll env c v pdfs =
        (pdfs.filterMap (fileOutcome env v), pdfs.filterMap (fileOutput env v)) := by
  intro pdfs
  induction pdfs with
  | nil => intro c; rfl
  | cons pdf rest ih =>
    intro c
    simp only [processAll]
    cases hp : processOne env c v pdf with
    | mk c₁ eo =>
      have h2 := processOne_snd_eq env v pdf hask c
      rw [hp] at h2
      simp only at h2
      cases eo with
      | mk e o =>
        obtain ⟨he, ho⟩ := Prod.mk.injEq .. ▸ h2
        rw [ih c₁, List.filterMap_cons, List.filterMap_cons, ← he, ← ho]
        cases e <;> cases o <;> simp [Option.toList]

theorem fmtVendor_data_ne_nil (p : String × String) : (fmtVendor p).data ≠ [] := by
  show ((("- " ++ p.1) ++ ": ") ++ p.2).data ≠ []
  rw [data_append, data_append, data_append]
  exact List.append_ne_nil_of_left_ne_nil
    (List.append_ne_nil_of_left_ne_nil
      (List.append_ne_nil_of_left_ne_nil (by decide) p.1.data) ": ".data)
    p.2.data

theorem fmtVendor_ne_empty (p : String × String) : fmtVendor p ≠ "" := by
  intro h
  exact fmtVendor_data_ne_nil p (by rw [h])

theorem fmtVendor_nlFree (p : String × String) (h1 : '\n' ∉ p.1.data)
    (h2 : '\n' ∉ p.2.data) : '\n' ∉ (fmtVendor p).data := by
  show '\n' ∉ ((("- " ++ p.1) ++ ": ") ++ p.2).data
  rw [data_append, data_append, data_append]
  intro hmem
  rcases List.mem_append.mp hmem with hmem' | hc
  · rcases List.mem_append.mp hmem' with hmem'' | hc
    · rcases List.mem_append.mp hmem'' with hc | hc
      · exact absurd hc (by decide)
      · exact h1 hc
    · exact absurd hc (by decide)
  · exact h2 hc

theorem vendorListStr_ne_empty (x : String × String) (xs : List (String × String)) :
    vendorListStr (x :: xs) ≠ "" := by
  cases xs with
  | nil => exact fmtVendor_ne_empty x
  | cons y ys =>
    intro h
    have h2 : (vendorListStr (x :: y :: ys)).data = [] := by rw [h]
    rw [show vendorListStr (x :: y :: ys) =
        (fmtVendor x ++ "\n") ++ vendorListStr (y :: ys) from rfl] at h2
    rw [data_append, data_append] at h2
    exact List.append_ne_nil_of_left_ne_nil
      (List.append_ne_nil_of_left_ne_nil (fmtVendor_data_ne_nil x) "\n".data)
      (vendorListStr (y :: ys)).data h2

theorem mkPayload_get_conv (c : Client) (fd : Json)
    (v : List (String × String)) (m : String) :
    (mkPayload c fd v m none).get "conversationId" = some (.str "new") := rfl

theorem mkPayload_get_parent (c : Client) (fd : Json)
    (v : List (String × String)) (m : String) (conv : Option String) :
    (mkPayload c fd v m conv).get "parentMessageId" =
      some (nilFallback c.parent_message_id) := by
  cases c with
  | mk cid pid =>
    cases pid with
    | none => rfl
    | some j => rfl

/-- C2.  Streamed response reconstruction: for every stream, the retained
`full_response` after the loop equals the `text` value of the last
well-formed `data: `-event carrying a `text` field before the first
`data: [DONE]` line (each later value replacing the earlier one), and the
initial empty string when no such event occurs; events without a `text`
field and everything at or after `data: [DONE]` are ignored. -/
theorem stream_final_text (loads : String → Option Json)
    (lines : List String) (c : Client) :
    (runLines loads (.str "", c) lines).1 =
      (textEvents loads lines).getLastD (.str "") :=
  runLines_fst loads lines (.str "") c

/-- C7.  A `data: `-framed line whose payload is malformed JSON is
silently skipped: the loop state (retained text and conversation ids) is
unchanged, the stream is not aborted, and the run over the remaining
lines is as if the line were absent. -/
theorem malformed_data_line_skipped (loads : String → Option Json)
    (st : Json × Client) (line : String) (rest : List String)
    (h₁ : pyStartsWith "data: " line = true)
    (h₂ : pyDrop 6 line ≠ "[DONE]")
    (h₃ : loads (pyDrop 6 line) = none) :
    stepLine loads st line = (st, false) ∧
    runLines loads st (line :: rest) = runLines loads st rest := by
  have hline : line ≠ "" := by
    intro he
    subst he
    rw [show pyStartsWith "data: " "" = false from rfl] at h₁
    cases h₁
  have hstep : stepLine loads st line = (st, false) := by
    rw [stepLine, if_neg hline, if_pos h₁, if_neg h₂, h₃]
  exact ⟨hstep, by simp only [runLines, hstep]⟩

/-- Witness for C7 at a concrete malformed line. -/
theorem malformed_data_line_skipped_witness :
    stepLine (fun _ => none) (Json.str "", initClient) "data: x" =
      ((Json.str "", initClient), false) ∧
    runLines (fun _ => none) (Json.str "", initClient)
        ["data: x", "data: [DONE]"] =
      runLines (fun _ => none) (Json.str "", initClient) ["data: [DONE]"] :=
  malformed_data_line_skipped (fun _ => none) (Json.str "", initClient)
    "data: x" ["data: [DONE]"] rfl (by decide) rfl

/-- C8.  `upload_file` on a path that does not exist logs the
file-not-found diagnostic and returns the `None` sentinel without sending
any HTTP request. -/
theorem upload_missing_file_no_request (env : Env) (p : String)
    (h : env.fs p = none) :
    upload_file env p = (none, [], ["✗ File not found: " ++ p]) := by
  rw [upload_file, h]

/-- Witness for C8 in the environment with an empty filesystem. -/
theorem upload_missing_file_no_request_witness :
    upload_file env8 "missing.pdf" =
      (none, [], ["✗ File not found: " ++ "missing.pdf"]) :=
  upload_missing_file_no_request env8 "missing.pdf" rfl

/-- Counterexample to C9 as stated: a vendor name containing a newline
produces two lines in the rendered block for a single mapping, so the
block does not consist of one `- name: number` line per mapping. -/
theorem vendor_line_newline_breaks_claim :
    linesOf (vendorListStr [("A\nB", "V1")]) = ["- A", "B: V1"] ∧
    ["- A", "B: V1"] ≠ [("A\nB", "V1")].map fmtVendor := ⟨rfl, by decide⟩

/-- C9 (amended).  For every vendor mapping whose names and numbers are
newline-free, the rendered vendor block consists of exactly one line per
mapping, each of the form `- name: number`, in mapping order. -/
theorem vendor_list_block_lines :
    ∀ (m : List (String × String)),
      (∀ p ∈ m, '\n' ∉ p.1.data ∧ '\n' ∉ p.2.data) →
      linesOf (vendorListStr m) = m.map fmtVendor := by
  intro m
  induction m with
  | nil => intro _; rfl
  | cons p rest ih =>
    intro h
    have hp := h p (List.mem_cons_self p rest)
    have hfl : '\n' ∉ (fmtVendor p).data := fmtVendor_nlFree p hp.1 hp.2
    cases rest with
    | nil =>
      rw [show vendorListStr [p] = fmtVendor p from rfl]
      rw [linesOf, if_neg (fmtVendor_ne_empty p)]
      rw [pySplitNl, splitNlChars_nlFree _ hfl]
      simp [mk_data]
    | cons q rest' =>
      have hrest : ∀ x ∈ q :: rest', '\n' ∉ x.1.data ∧ '\n' ∉ x.2.data :=
        fun x hx => h x (List.mem_cons_of_mem p hx)
      have ihr := ih hrest
      have hqne := vendorListStr_ne_empty q rest'
      rw [linesOf, if_neg (vendorListStr_ne_empty p (q :: rest'))]
      rw [show vendorListStr (p :: q :: rest') =
          (fmtVendor p ++ "\n") ++ vendorListStr (q :: rest') from rfl]
      rw [pySplitNl]
      rw [show ((fmtVendor p ++ "\n") ++ vendorListStr (q :: rest')).data =
          (fmtVendor p).data ++ '\n' :: (vendorListStr (q :: rest')).data from by
        rw [data_append, data_append, List.append_assoc]
        rfl]
      rw [splitNlChars_append_nl _ _ hfl]
      simp only [List.map_cons, mk_data]
      rw [show (splitNlChars (vendorListStr (q :: rest')).data).map
          (fun l => String.mk l) = pySplitNl (vendorListStr (q :: rest')) from rfl]
      rw [linesOf, if_neg hqne] at ihr
      rw [ihr]
      rfl

/-- Witness for C9 on a concrete two-entry mapping. -/
theorem vendor_list_block_lines_witness :
    linesOf (vendorListStr [("A", "V1"), ("B", "V2")]) =
      [("A", "V1"), ("B", "V2")].map fmtVendor :=
  vendor_list_block_lines [("A", "V1"), ("B", "V2")] (by decide)

/-- Counterexample to C4 as stated: an input that does not begin with a
``` fence is not passed to the JSON parser unchanged — surrounding
whitespace is stripped first. -/
theorem fence_passthrough_not_unchanged :
    pyStartsWith "```" " \x7b\x7d" = false ∧
    strip_code_fence " \x7b\x7d" ≠ " \x7b\x7d" := by
  constructor
  · rfl
  · decide

/-- C4 (amended).  After surrounding whitespace is trimmed, a final answer
beginning with a ``` marker loses its first and last lines — in
particular a fenced body is recovered exactly — and a trimmed answer
without a leading fence is passed to the JSON parser unchanged. -/
theorem fence_stripping_after_trim (s body : String) (h : pyStrip s = s) :
    (pyStartsWith "```" s = false → strip_code_fence s = s) ∧
    (s = "```\n" ++ body ++ "\n```" → strip_code_fence s = body) := by
  constructor
  · intro hf
    rw [strip_code_fence, h, hf]
    simp
  · intro hs
    subst hs
    rw [strip_code_fence, h]
    have hpre : pyStartsWith "```" ("```\n" ++ body ++ "\n```") = true := by
      rw [pyStartsWith, List.isPrefixOf_iff_prefix]
      exact ⟨'\n' :: (body.data ++ "\n```".data), rfl⟩
    rw [if_pos hpre]
    rw [pySplitNl]
    rw [show ("```\n" ++ body ++ "\n```").data =
        "```".data ++ '\n' :: (body.data ++ '\n' :: "```".data) from rfl]
    rw [splitNlChars_append_nl _ _ (by decide)]
    rw [splitNlChars_append_last _ _ (by decide)]
    simp only [List.map_cons, List.map_append, List.map_nil,
      List.drop_succ_cons, List.drop_zero, List.dropLast_concat]
    rw [show (splitNlChars body.data).map (fun l => String.mk l) =
        pySplitNl body from rfl]
    exact pyJoinNl_pySplitNl body

/-- Witness for C4 on a concrete fenced answer. -/
theorem fence_stripping_after_trim_witness :
    (pyStartsWith "```" "```\n\x7b\x7d\n```" = false →
      strip_code_fence "```\n\x7b\x7d\n```" = "```\n\x7b\x7d\n```") ∧
    ("```\n\x7b\x7d\n```" = "```\n" ++ "\x7b\x7d" ++ "\n```" →
      strip_code_fence "```\n\x7b\x7d\n```" = "\x7b\x7d") :=
  fence_stripping_after_trim "```\n\x7b\x7d\n```" "\x7b\x7d" (by decide)

/-- Counterexample to C1 as stated: in a three-file batch where `b.pdf`'s
upload returns HTTP 500 while `a.pdf` and `c.pdf` fully succeed, the
summary has only two entries — there is no entry at all (in particular no
`error` entry) for the failed file. -/
theorem batch_summary_omits_sentinel_failures :
    process_invoice_folder env3 pdfs3 "v.json" =
      .ok (.completed [.success "a.pdf" jOut, .success "c.pdf" jOut]
        [("a.json", jOut), ("c.json", jOut),
         ("batch_summary.json", .arr
           [BatchEntry.toJson (.success "a.pdf" jOut),
            BatchEntry.toJson (.success "c.pdf" jOut)])]) ∧
    [BatchEntry.success "a.pdf" jOut,
      BatchEntry.success "c.pdf" jOut].length ≠ pdfs3.length ∧
    ∀ e ∈ [BatchEntry.success "a.pdf" jOut, BatchEntry.success "c.pdf" jOut],
      BatchEntry.file e ≠ "b.pdf" := by
  refine ⟨rfl, by decide, ?_⟩
  intro e he
  simp only [List.mem_cons, List.not_mem_nil, or_false] at he
  rcases he with rfl | rfl <;> decide

/-- C1 (amended).  When the per-file server behaviour depends only on the
uploaded file reference, a batch run over a non-empty folder completes
with, for each file in order: a `success` summary entry and a written
output exactly when its upload returns 200 with a truthy body and its
extraction returns a truthy value; an `error` entry when extraction
raises; and no summary entry and no output when upload or extraction
fails with the falsy sentinel.  Each file's outcome, entry and output are
those it would produce in isolation, regardless of the other files'
failures, and the summary file is written last. -/
theorem batch_failure_isolation_amended (env : Env) (pdfs : List String)
    (vf content : String) (vj : Json)
    (hl : env.loginStatus = 200) (hc : env.fs vf = some content)
    (hj : env.loads content = some vj) (hne : pdfs ≠ [])
    (hask : ∀ p q : Json, p.get "files" = q.get "files" →
      env.askStatus p = env.askStatus q ∧ env.askLines p = env.askLines q) :
    process_invoice_folder env pdfs vf = .ok (.completed
      (pdfs.filterMap (fileOutcome env (toVendorPairs vj)))
      (pdfs.filterMap (fileOutput env (toVendorPairs vj)) ++
        [("batch_summary.json",
          .arr ((pdfs.filterMap (fileOutcome env (toVendorPairs vj))).map
            BatchEntry.toJson))])) := by
  have hie : pdfs.isEmpty = false := by
    cases pdfs with
    | nil => exact absurd rfl hne
    | cons a l => rfl
  simp only [process_invoice_folder]
  rw [if_neg (fun h2 => h2 hl)]
  simp only [hc, hj, hie, Bool.false_eq_true, if_false]
  rw [processAll_eq env (toVendorPairs vj) hask pdfs initClient]

/-- Witness for C1 on the concrete three-file scenario. -/
theorem batch_failure_isolation_witness :
    process_invoice_folder env3 pdfs3 "v.json" = .ok (.completed
      (pdfs3.filterMap (fileOutcome env3 (toVendorPairs vj3)))
      (pdfs3.filterMap (fileOutput env3 (toVendorPairs vj3)) ++
        [("batch_summary.json",
          .arr ((pdfs3.filterMap (fileOutcome env3 (toVendorPairs vj3))).map
            BatchEntry.toJson))])) :=
  batch_failure_isolation_amended env3 pdfs3 "v.json" "V" vj3 rfl rfl rfl
    (by decide) (fun _ _ _ => ⟨rfl, rfl⟩)

/-- Counterexample to C3 as stated: in the batch driver a missing
vendor-mappings file does not yield a sentinel or exit code — it raises
an uncaught `FileNotFoundError`. -/
theorem batch_missing_vendor_file_uncaught :
    process_invoice_folder env8 ["a.pdf"] "vendors.json" =
      .error .fileNotFoundError := rfl

/-- C3 (amended).  A missing PDF path yields the `None` sentinel and exit
code 1 without a crash; a missing vendor-mappings file makes the
single-file driver silently fall back to the built-in default mappings
(no failure at all), while in the batch driver it raises an uncaught
`FileNotFoundError` that aborts the run right after login. -/
theorem missing_paths_behavior (env : Env) (vf : String)
    (pdfs : List String) (a : Args)
    (hv : env.fs vf = none) (hl : env.loginStatus = 200)
    (hp : env.fs a.pdf = none) (ha : a.vendors = some vf) :
    load_vendor_mappings env (some vf) = .ok defaultVendorMappings ∧
    process_invoice_folder env pdfs vf = .error .fileNotFoundError ∧
    main_run env a = .ok (1, []) := by
  have hload : load_vendor_mappings env (some vf) = .ok defaultVendorMappings := by
    rw [load_vendor_mappings]
    by_cases he : vf = ""
    · rw [if_pos he]
    · rw [if_neg he, hv]
  refine ⟨hload, ?_, ?_⟩
  · simp only [process_invoice_folder]
    rw [if_neg (fun h2 => h2 hl), hv]
  · simp only [main_run]
    rw [if_neg (fun h2 => h2 hl), ha, hload]
    simp only [upload_file, hp]

/-- Witness for C3 in the environment with an empty filesystem. -/
theorem missing_paths_behavior_witness :
    load_vendor_mappings env8 (some "vendors.json") = .ok defaultVendorMappings ∧
    process_invoice_folder env8 ["b.pdf"] "vendors.json" =
      .error .fileNotFoundError ∧
    main_run env8 ⟨"missing.pdf", some "vendors.json", defaultModel, none⟩ =
      .ok (1, []) :=
  missing_paths_behavior env8 "vendors.json" ["b.pdf"]
    ⟨"missing.pdf", some "vendors.json", defaultModel, none⟩ rfl rfl rfl rfl

/-- Counterexample to C5 as stated: when the final answer fails to parse,
`extract_invoice` does return `None`, but in batch mode the file is not
counted as failed — the summary is empty and contains no `error` entry
for it. -/
theorem parse_failure_not_counted :
    (extract_invoice env5 initClient (env5.uploadBody "a.pdf")
        (toVendorPairs vj3) defaultModel none).1 = Except.ok none ∧
    process_invoice_folder env5 ["a.pdf"] "v.json" =
      .ok (.completed [] [("batch_summary.json", .arr [])]) := ⟨rfl, rfl⟩

/-- C5 (amended).  When the final answer text fails to parse as JSON,
`extract_invoice` returns `None`; the batch driver then skips the file
via `continue`: no summary entry of any status is recorded for it and no
output file is written, while processing continues with the updated
conversation state. -/
theorem parse_failure_skipped_silently (env : Env) (c : Client)
    (vendors : List (String × String)) (pdf : String) (fd : Json) (s : String)
    (hfd : (upload_file env pdf).1 = some fd) (ht : fd.truthy = true)
    (hask : env.askStatus (mkPayload c fd vendors defaultModel none) = 200)
    (hfull : (runLines env.loads (Json.str "", c)
        (env.askLines (mkPayload c fd vendors defaultModel none))).1 = Json.str s)
    (hparse : env.loads (strip_code_fence s) = none) :
    (extract_invoice env c fd vendors defaultModel none).1 = Except.ok none ∧
    processOne env c vendors pdf =
      ((extract_invoice env c fd vendors defaultModel none).2, none, none) := by
  have hres : (extract_invoice env c fd vendors defaultModel none).1 =
      Except.ok none := by
    rw [extract_fst200 env c fd vendors defaultModel none hask, hfull]
    show Except.ok (parse_final env.loads s) = Except.ok none
    rw [parse_final, hparse]
  refine ⟨hres, ?_⟩
  simp only [processOne, hfd]
  rw [if_neg (fun hh => hh ht)]
  cases hx : extract_invoice env c fd vendors defaultModel none with
  | mk r c' =>
    rw [hx] at hres
    simp only at hres
    subst hres
    rfl

/-- Witness for C5 on the concrete scenario with final answer `BAD`. -/
theorem parse_failure_skipped_silently_witness :
    (extract_invoice env5 initClient (.obj [("file_id", .str "a.pdf")])
        [] defaultModel none).1 = Except.ok none ∧
    processOne env5 initClient [] "a.pdf" =
      ((extract_invoice env5 initClient (.obj [("file_id", .str "a.pdf")])
          [] defaultModel none).2, none, none) :=
  parse_failure_skipped_silently env5 initClient [] "a.pdf"
    (.obj [("file_id", .str "a.pdf")]) "BAD" rfl rfl rfl rfl rfl

/-- Counterexample to C10 as stated: a streamed event carrying an
empty-string `messageId` is stored, but the next request's
`parentMessageId` is the nil UUID, not that stored (falsy) value. -/
theorem parent_message_id_empty_fallback :
    c10.parent_message_id = some (.str "") ∧
    (mkPayload c10 fd10 [] defaultModel none).get "parentMessageId" =
      some (.str nilUuid) ∧
    Json.str nilUuid ≠ Json.str "" := by
  refine ⟨rfl, rfl, ?_⟩
  intro h
  injection h with h'
  exact absurd h' (by decide)

/-- C10 (amended).  With no explicit conversation-id argument, every
request payload carries `conversationId = "new"`; its `parentMessageId`
is the `messageId` value of the last streamed event containing one in the
preceding call (falling back to the value already stored before that
call), with Python's `or` replacing a falsy stored value — in particular
`None` on a first call or an empty-string id — by the nil UUID. -/
theorem payload_threading_amended (env : Env) (c : Client) (fd₁ : Json)
    (v₁ : List (String × String)) (m₁ : String) (fd₂ : Json)
    (v₂ : List (String × String)) (m₂ : String)
    (hask : env.askStatus (mkPayload c fd₁ v₁ m₁ none) = 200) :
    (mkPayload (extract_invoice env c fd₁ v₁ m₁ none).2 fd₂ v₂ m₂ none).get
        "conversationId" = some (.str "new") ∧
    (mkPayload (extract_invoice env c fd₁ v₁ m₁ none).2 fd₂ v₂ m₂ none).get
        "parentMessageId" = some (nilFallback
          (((msgIdEvents env.loads
              (env.askLines (mkPayload c fd₁ v₁ m₁ none))).map some).getLastD
            c.parent_message_id)) := by
  constructor
  · exact mkPayload_get_conv _ fd₂ v₂ m₂
  · rw [extract_snd200 env c fd₁ v₁ m₁ none hask, mkPayload_get_parent]
    rw [← runLines_parent env.loads
      (env.askLines (mkPayload c fd₁ v₁ m₁ none)) (Json.str "") c]

/-- Witness for C10 on the empty-`messageId` scenario. -/
theorem payload_threading_amended_witness :
    (mkPayload (extract_invoice env10 initClient fd10 [] defaultModel none).2
        fd10 [] defaultModel none).get "conversationId" = some (.str "new") ∧
    (mkPayload (extract_invoice env10 initClient fd10 [] defaultModel none).2
        fd10 [] defaultModel none).get "parentMessageId" =
      some (nilFallback
        (((msgIdEvents env10.loads
            (env10.askLines (mkPayload initClient fd10 [] defaultModel none))).map
              some).getLastD initClient.parent_message_id)) :=
  payload_threading_amended env10 initClient fd10 [] defaultModel
    fd10 [] defaultModel rfl

/-- Counterexample to C6 as stated: an extraction that succeeds with the
empty JSON object (a parsed, non-`None` result) still makes the CLI exit
with code 1, because `if not invoice_data` tests Python truthiness. -/
theorem empty_object_success_exits_one :
    (extract_invoice env6 initClient (env6.uploadBody "a.pdf")
        defaultVendorMappings defaultModel none).1 =
      Except.ok (some (.obj [])) ∧
    main_run env6 args6 = .ok (1, []) := ⟨rfl, rfl⟩

/-- C6 (amended).  When `main` returns normally its exit code is 0 or 1,
and it is 0 exactly when login returned 200, the upload returned a truthy
body, and extraction returned a truthy value; login failure, upload
failure, extraction failure, and also a falsy (e.g. empty-object)
extraction result all yield exit code 1. -/
theorem cli_exit_code_spec (env : Env) (a : Args) (code : Nat)
    (outs : List (String × Json))
    (h : main_run env a = .ok (code, outs)) :
    (code = 0 ∨ code = 1) ∧
    (code = 0 ↔ env.loginStatus = 200 ∧
      ∃ vendors fd j,
        load_vendor_mappings env a.vendors = .ok vendors ∧
        (upload_file env a.pdf).1 = some fd ∧ fd.truthy = true ∧
        (extract_invoice env initClient fd vendors a.modelName none).1 =
          Except.ok (some j) ∧ j.truthy = true) := by
  simp only [main_run] at h
  by_cases hl : env.loginStatus = 200
  · rw [if_neg (fun h2 => h2 hl)] at h
    cases hv : load_vendor_mappings env a.vendors with
    | error e =>
      rw [hv] at h
      simp at h
    | ok vendors =>
      rw [hv] at h
      simp only at h
      cases hu : (upload_file env a.pdf).1 with
      | none =>
        rw [hu] at h
        simp only [Except.ok.injEq, Prod.mk.injEq] at h
        obtain ⟨hcode, -⟩ := h
        subst hcode
        refine ⟨Or.inr rfl, ?_, ?_⟩
        · intro h0
          exact absurd h0 (by decide)
        · rintro ⟨-, vendors', fd', j', -, hu', -⟩
          cases hu'
      | some fd =>
        rw [hu] at h
        simp only at h
        by_cases hft : fd.truthy = true
        · rw [if_neg (fun hh => hh hft)] at h
          cases hx : extract_invoice env initClient fd vendors a.modelName none with
          | mk r c' =>
            rw [hx] at h
            cases r with
            | error e =>
              simp at h
            | ok jo =>
              cases jo with
              | none =>
                simp only [Except.ok.injEq, Prod.mk.injEq] at h
                obtain ⟨hcode, -⟩ := h
                subst hcode
                refine ⟨Or.inr rfl, ?_, ?_⟩
                · intro h0
                  exact absurd h0 (by decide)
                · rintro ⟨-, vendors', fd', j', hv', hu', -, hx', -⟩
                  obtain rfl : fd = fd' := by
                    simpa using hu'
                  obtain rfl : vendors = vendors' := by
                    simpa using hv'
                  rw [hx] at hx'
                  simp at hx'
              | some j =>
                simp only at h
                by_cases hjt : j.truthy = true
                · rw [if_neg (fun hh => hh hjt)] at h
                  cases j with
                  | obj fields =>
                    simp only [Except.ok.injEq, Prod.mk.injEq] at h
                    obtain ⟨hcode, -⟩ := h
                    subst hcode
                    refine ⟨Or.inl rfl, ?_, fun _ => rfl⟩
                    intro _
                    exact ⟨hl, vendors, fd, .obj fields, rfl, rfl, hft,
                      by rw [hx], hjt⟩
                  | null => simp at h
                  | bool b => simp at h
                  | num n => simp at h
                  | str s => simp at h
                  | arr elts => simp at h
                · rw [if_pos hjt] at h
                  simp only [Except.ok.injEq, Prod.mk.injEq] at h
                  obtain ⟨hcode, -⟩ := h
                  subst hcode
                  refine ⟨Or.inr rfl, ?_, ?_⟩
                  · intro h0
                    exact absurd h0 (by decide)
                  · rintro ⟨-, vendors', fd', j', hv', hu', -, hx', hjt'⟩
                    obtain rfl : fd = fd' := by
                      simpa using hu'
                    obtain rfl : vendors = vendors' := by
                      simpa using hv'
                    rw [hx] at hx'
                    simp at hx'
                    cases hx'
                    exact absurd hjt' hjt
        · rw [if_pos hft] at h
          simp only [Except.ok.injEq, Prod.mk.injEq] at h
          obtain ⟨hcode, -⟩ := h
          subst hcode
          refine ⟨Or.inr rfl, ?_, ?_⟩
          · intro h0
            exact absurd h0 (by decide)
          · rintro ⟨-, vendors', fd', j', -, hu', hft', -⟩
            obtain rfl : fd = fd' := by
              simpa using hu'
            exact absurd hft' hft
  · rw [if_pos hl] at h
    simp only [Except.ok.injEq, Prod.mk.injEq] at h
    obtain ⟨hcode, -⟩ := h
    subst hcode
    refine ⟨Or.inr rfl, ?_, ?_⟩
    · intro h0
      exact absurd h0 (by decide)
    · rintro ⟨hl200, -⟩
      exact absurd hl200 hl

/-- Witness for C6 on a fully successful run (exit code 0). -/
theorem cli_exit_code_spec_witness :
    ((0 : Nat) = 0 ∨ (0 : Nat) = 1) ∧
    ((0 : Nat) = 0 ↔ env0.loginStatus = 200 ∧
      ∃ vendors fd j,
        load_vendor_mappings env0 args0.vendors = .ok vendors ∧
        (upload_file env0 args0.pdf).1 = some fd ∧ fd.truthy = true ∧
        (extract_invoice env0 initClient fd vendors args0.modelName none).1 =
          Except.ok (some j) ∧ j.truthy = true) :=
  cli_exit_code_spec env0 args0 0
    [("inv.json", .obj [("vendor", .str "A")])] rfl

end InvoiceExtractor

